import Mathlib

/-!
Medusa logging core (`Main_Thread_64.c`)

A shallow embedding of the logging core of droidcat: the severity gate
(`medusa_should_log`), the diagnostic printer (`medusa_va`, `medusa_fprintf`),
the formatting pipeline (`medusa_do`) and the engine lifecycle
(`medusa_activate`, `medusa_wait`, `medusa_deactivate`).

Conventions of the embedding.

* Machine integers are `Nat`/`Int` with explicit wrap-around at the width of the
  C type (`to_int16`, `to_int32`, `to_size_t`, `% 256`, `% 65536`).
* A pointer that the source compares with `NULL` is an `Option`
  (`droidcat_ctx`, `medusa_log_ctx`, `output_file`, the optional configuration of
  `medusa_activate`).  Pointers the source never tests (`fmt`, `current_source`,
  the `droidcat_event` callback) are taken to be valid.
* Every call observable from outside (allocator, event callback, stream write,
  mutex operation, and the two collaborators `medusa_produce` and
  `medusa_dispatch_message`, which the source calls but does not define) is
  appended to a trace, in program order.  The source ignores the results of
  the mutex calls, so no control flow depends on them.  The third undefined
  collaborator, `medusa_current_context`, only fills the field
  `message_thread_context`, which nothing in the source reads; it is left out.
* A format string together with its arguments is a `Message`: the text the
  reference formatter produces for it (`full`), and the text a second pass
  over the same `va_list` produces (`again`).  The source hands the `va_list`
  that `vsprintf` has consumed to `vsnprintf` without `va_copy`, so the two
  texts agree only when the format has no conversion.
* The source measures with `vsprintf(NULL, fmt, va)`, a store through a null
  destination.  The call is undefined in C and faults on a hosted library; the
  specification reads it as a dry measuring pass.  Both are kept: a `Platform`
  says whether the call returns the length, and which value a conversion reads
  from a consumed `va_list`.  `as_written` is the platform on which the call
  faults; every run past the gate ends there.
* `vsnprintf(buf, n, ...)` stores at most `n - 1` characters followed by the
  terminator.
* What the run cannot decide from its arguments is an explicit input
  (`Environment`): the outcome of each allocator call, the content of the one
  stack field that is read without having been written, and the values
  returned by the two undefined collaborators.
-/

namespace Medusa

/-! ## Data model -/

/-- The nine severities, `medusa_type_e`, in declaration order. -/
inductive medusa_type_e where
  | MEDUSA_LOG_INFO
  | MEDUSA_LOG_WARNING
  | MEDUSA_LOG_BUG
  | MEDUSA_LOG_DEV
  | MEDUSA_LOG_ADVICE
  | MEDUSA_LOG_SUCCESS
  | MEDUSA_LOG_ASSERT
  | MEDUSA_LOG_FATAL
  | MEDUSA_LOG_ERROR
  deriving DecidableEq, Repr

open medusa_type_e

/-- The enumerator value of a severity (its position in the declaration). -/
def medusa_type_e.val : medusa_type_e → Nat
  | MEDUSA_LOG_INFO => 0
  | MEDUSA_LOG_WARNING => 1
  | MEDUSA_LOG_BUG => 2
  | MEDUSA_LOG_DEV => 3
  | MEDUSA_LOG_ADVICE => 4
  | MEDUSA_LOG_SUCCESS => 5
  | MEDUSA_LOG_ASSERT => 6
  | MEDUSA_LOG_FATAL => 7
  | MEDUSA_LOG_ERROR => 8

/-- The configuration record `medusa_conf_t`.  `displayable_level` is a
`uint8_t` and the two sizes are `uint16_t`: they are read modulo their width. -/
structure medusa_conf_t where
  displayable_level : Nat
  format_buffer_sz : Nat
  output_buffer_sz : Nat
  adjust_buffers_size : Bool
  deriving DecidableEq, Repr

/-- The constant `medusa_default_conf` (`_DROIDCAT_DEBUG_MODE_` is 0, so the
level is `0xff & 0x1f`). -/
def medusa_default_conf : medusa_conf_t :=
  { displayable_level := 0xff &&& 0x1f
    format_buffer_sz := 0x7f
    output_buffer_sz := 0x11f
    adjust_buffers_size := true }

/-- The source location `medusa_sourcetrace_t`. -/
structure medusa_sourcetrace_t where
  source_filename : Option String
  source_line : Int
  deriving DecidableEq, Repr

/-- The engine `medusa_ctx_t`.  The mutex carries no data the source reads;
its operations appear in the trace. -/
structure medusa_ctx_t where
  medusa_config : medusa_conf_t
  medusa_is_running : Bool
  deriving DecidableEq, Repr

/-- The integrator context `droidcat_ctx_t`, reduced to the field the logging
core reads; the `droidcat_event` callback is installed. -/
structure droidcat_ctx_t where
  medusa_log_ctx : Option medusa_ctx_t
  deriving DecidableEq, Repr

/-- The two standard streams the source writes to. -/
inductive FILE where
  | stdout
  | stderr
  deriving DecidableEq, Repr

/-- Observable calls, in program order. -/
inductive Event where
  | mutex_init
  | mutex_lock
  | mutex_unlock
  | mutex_destroy
  | calloc (size : Nat) (ok : Bool)
  | realloc (size : Nat) (ok : Bool)
  | realloc_stack (size : Nat)
  | droidcat_event (event_code : Nat) (text : List Char) (source : medusa_sourcetrace_t)
  | fprintf (output_file : FILE) (text : List Char)
  | medusa_produce (collect_format_sz collect_output_sz : Int) (text : List Char)
  | medusa_dispatch_message (text : List Char)
  deriving DecidableEq, Repr

/-- How a call ends: it returns a value, reaches undefined behaviour (a null
dereference, `realloc` of a pointer that is not from the heap, a store through
a null buffer, an out-of-range conversion), trips an `assert`, or the model
runs out of fuel. -/
inductive Outcome (α : Type) where
  | returned (value : α)
  | undefined
  | aborted
  | out_of_fuel
  deriving DecidableEq, Repr

/-- A run: the calls made so far and how the run ended. -/
structure Run (α : Type) where
  trace : List Event
  out : Outcome α
  deriving DecidableEq, Repr

/-- Sequencing of runs: the second part runs only if the first returned. -/
def Run.bind {α β : Type} (r : Run α) (k : α → Run β) : Run β :=
  match r.out with
  | .returned v => { trace := r.trace ++ (k v).trace, out := (k v).out }
  | .undefined => { trace := r.trace, out := .undefined }
  | .aborted => { trace := r.trace, out := .aborted }
  | .out_of_fuel => { trace := r.trace, out := .out_of_fuel }

instance : Monad Run where
  pure v := { trace := [], out := .returned v }
  bind := Run.bind

/-- Record one observable call. -/
def emit (e : Event) : Run Unit := { trace := [e], out := .returned () }

/-- A run that stops in undefined behaviour. -/
def undefined_behaviour {α : Type} : Run α := { trace := [], out := .undefined }

/-- The macro `assert`. -/
def c_assert (cond : Bool) : Run Unit :=
  if cond then pure () else { trace := [], out := .aborted }

/-- The inputs of a `medusa_do` run that its arguments do not determine. -/
structure Environment where
  /-- Content of `produce_result.format_is_allocated` on entry: the structure
  is an uninitialised local and the field is written only on the heap path. -/
  format_is_allocated_initial : Bool
  /-- Whether the `calloc` of the format buffer succeeds. -/
  calloc_format_ok : Bool
  /-- Whether the `calloc` of the output buffer succeeds. -/
  calloc_output_ok : Bool
  /-- Whether the `realloc` of the format buffer succeeds. -/
  realloc_format_ok : Bool
  /-- Whether the `realloc` of the output buffer succeeds. -/
  realloc_output_ok : Bool
  /-- Value returned by `medusa_produce` (called, not defined, in the source). -/
  medusa_produce_ret : Int
  /-- Value returned by `medusa_dispatch_message` (called, not defined). -/
  medusa_dispatch_message_ret : Int
  deriving DecidableEq, Repr

/-- What the run-time library does where the source leaves the C standard. -/
structure Platform where
  /-- Whether `vsprintf(NULL, fmt, va)` returns the length of the text (the dry
  measuring pass of the specification); when false the store through the null
  destination faults. -/
  vsprintf_null_returns : Bool
  /-- The value a conversion of a second pass reads from the `va_list` the
  first pass has consumed, in place of the argument that was passed. -/
  stale_argument : Int → Int

/-- A format string with its arguments, as the two texts it yields. -/
structure Message where
  /-- The text of a pass over the fresh `va_list`. -/
  full : List Char
  /-- The text of a pass over the same `va_list` after it has been consumed. -/
  again : List Char
  deriving DecidableEq, Repr

/-- A format string without conversions: every pass yields the string itself. -/
def Message.literal (text : List Char) : Message := { full := text, again := text }

/-! ## Machine arithmetic -/

/-- Conversion to `int16_t` (two's complement wrap-around). -/
def to_int16 (n : Int) : Int := (n + 32768) % 65536 - 32768

/-- Conversion to `int` (two's complement wrap-around). -/
def to_int32 (n : Int) : Int := (n + 2147483648) % 4294967296 - 2147483648

/-- Conversion to `size_t` / `unsigned long` (64 bits). -/
def to_size_t (n : Int) : Nat := (n % 18446744073709551616).toNat

/-- Significand of the `double` nearest to 1.65: `0x1.A666666666666p+0`, that
is `GROWABLE_SIGNIFICAND / 2 ^ 52`. -/
def GROWABLE_SIGNIFICAND : Nat := 0x1A666666666666

/-- The number of binary digits of `n`, counted up to `fuel`. -/
def bit_length : Nat → Nat → Nat
  | 0, _ => 0
  | fuel + 1, n => if n = 0 then 0 else bit_length fuel (n / 2) + 1

/-- Round a quantity `p / 2 ^ 52` to 53 significant bits, ties to even; the
result is again a numerator over `2 ^ 52`.  The numerators that occur are
products of an `int` with a 53-bit significand, below `2 ^ 84`. -/
def round_to_double (p : Nat) : Nat :=
  let bits := bit_length 128 p
  if bits ≤ 53 then p
  else
    let s := bits - 53
    let q := p / 2 ^ s
    let r := p % 2 ^ s
    let half := 2 ^ (s - 1)
    if half < r ∨ (r = half ∧ q % 2 = 1) then (q + 1) * 2 ^ s else q * 2 ^ s

/-- The C expression `needed_fmt_size * _GROWABLE_PERCENTAGE_` converted to
`int`: the `int` is converted to `double` exactly, the product is rounded to
nearest-even, and the conversion to `int` discards the fraction.  `none` when
the value does not fit an `int` (undefined in C). -/
def growable_size (needed_fmt_size : Int) : Option Int :=
  let magnitude : Nat := round_to_double (needed_fmt_size.natAbs * GROWABLE_SIGNIFICAND) / 2 ^ 52
  let value : Int := if needed_fmt_size < 0 then -(magnitude : Int) else (magnitude : Int)
  if -2147483648 ≤ value ∧ value ≤ 2147483647 then some value else none

/-! ## The formatter -/

/-- Decimal digits of `n`, most significant first, `fuel` digits at most. -/
def digits_aux (base : Nat) : Nat → Nat → List Char → List Char
  | 0, _, acc => acc
  | fuel + 1, n, acc =>
    if n / base = 0 then Nat.digitChar (n % base) :: acc
    else digits_aux base fuel (n / base) (Nat.digitChar (n % base) :: acc)

/-- The conversion `%d` applied to an `int`. -/
def fmt_d (n : Int) : List Char :=
  if n < 0 then '-' :: digits_aux 10 10 n.natAbs [] else digits_aux 10 10 n.natAbs []

/-- The conversion `%#lx` applied to an `unsigned long`: no `0x` for zero. -/
def fmt_lx (n : Nat) : List Char :=
  if n = 0 then ['0'] else '0' :: 'x' :: digits_aux 16 16 n []

/-- The call `vsprintf(NULL, fmt, va)` of lines 219 and 336.  Where it returns
it yields the number of characters of the text, or -1 when that number does
not fit an `int`; `none` when the store through the null destination faults. -/
def vsprintf (p : Platform) (msg : Message) : Option Int :=
  if p.vsprintf_null_returns then
    some (if msg.full.length ≤ 2147483647 then (msg.full.length : Int) else -1)
  else none

/-- The content of the buffer after `vsnprintf(buf, size, fmt, va)`: at most
`size - 1` characters of the full text; nothing is stored when `size` is 0
(the buffers of size 0 that occur are zero-filled heap buffers). -/
def vsnprintf (size : Nat) (full : List Char) : List Char :=
  if size = 0 then [] else full.take (size - 1)

/-- Text of `"Format message will be truncated in %d bytes"`; the argument is
an `int64_t` read back as `int`. -/
def format_truncated_message (needed_size : Int) : List Char :=
  "Format message will be truncated in ".toList ++ fmt_d (to_int32 needed_size) ++ " bytes".toList

/-- Text of `"The next log event will be truncated in %d bytes\n"`. -/
def next_event_truncated_message (collect_format_sz : Int) : List Char :=
  "The next log event will be truncated in ".toList ++ fmt_d collect_format_sz ++ " bytes\n".toList

/-- Text of `"Can't reallocate %#lx for format buffer\n"`; the `int` argument
is read back as `unsigned long`. -/
def cant_reallocate_message (new_size : Int) : List Char :=
  "Can\x27t reallocate ".toList ++ fmt_lx (to_size_t new_size) ++ " for format buffer\n".toList

/-- The call `medusa_fprintf(stderr, ..., "Format message will be truncated in
%d bytes", needed_size)`: the measuring pass reads `needed_size`, the rendering
pass reads what the consumed `va_list` holds next. -/
def truncated_diagnostic (p : Platform) (needed_size : Int) : Message :=
  { full := format_truncated_message needed_size
    again := format_truncated_message (p.stale_argument needed_size) }

/-- The call `medusa_fprintf(stderr, ..., "The next log event will be truncated
in %d bytes\n", collect_format_sz)`. -/
def next_event_diagnostic (p : Platform) (collect_format_sz : Int) : Message :=
  { full := next_event_truncated_message collect_format_sz
    again := next_event_truncated_message (to_int32 (p.stale_argument collect_format_sz)) }

/-- The call `medusa_fprintf(stderr, ..., "Can't reallocate %#lx for format
buffer\n", new_size)`. -/
def cant_reallocate_diagnostic (p : Platform) (new_size : Int) : Message :=
  { full := cant_reallocate_message new_size
    again := cant_reallocate_message (p.stale_argument new_size) }

/-! ## The severity gate and the event callback -/

/-- The function `medusa_should_log`: under the mutex, the level byte is
masked with the enumerator value of the severity, `*medusa_level & (uint8_t)id`,
and the result is converted to `bool`. -/
def medusa_should_log (id : medusa_type_e) (medusa_ctx : medusa_ctx_t) : Run Bool := do
  emit .mutex_lock
  let medusa_level := medusa_ctx.medusa_config.displayable_level % 256
  let should_be := (medusa_level &&& (id.val % 256)) != 0
  emit .mutex_unlock
  pure should_be

/-- The function `medusa_raise_event`: nothing without an integrator context,
otherwise one call of the `droidcat_event` callback with the message. -/
def medusa_raise_event (current_level : Nat) (text : List Char)
    (source : medusa_sourcetrace_t) (droidcat_ctx : Option droidcat_ctx_t) : Run Unit :=
  match droidcat_ctx with
  | none => pure ()
  | some _ => emit (.droidcat_event current_level text source)

/-! ## The diagnostic printer -/

/-- The size of `local_format` and of `stack_format`, `_STACK_FORMAT_BUFFER_SZ_`. -/
def STACK_FORMAT_BUFFER_SZ : Nat := 0x5f

/-- The size of `stack_output`, `_STACK_OUTPUT_BUFFER_SZ_`. -/
def STACK_OUTPUT_BUFFER_SZ : Nat := 0x5f * 2

/-- The function `medusa_va`.  Line 219 measures with `vsprintf(NULL, ...)`;
line 221 reads `droidcat_ctx->medusa_log_ctx` before `droidcat_ctx` is
compared with `NULL`; line 237 renders from the `va_list` that line 219 has
consumed.  The nested `medusa_fprintf` (which only forwards to `medusa_va`)
consumes one unit of fuel. -/
def medusa_va (p : Platform) : Nat → Option FILE → Option droidcat_ctx_t → Message → Run Int
  | 0, _, _, _ => { trace := [], out := .out_of_fuel }
  | fuel + 1, output_file, droidcat_ctx, msg =>
    match output_file with
    | none => pure (-1)
    | some file =>
      match vsprintf p msg with
      | none => undefined_behaviour
      | some needed_size =>
        match droidcat_ctx with
        | none => undefined_behaviour
        | some d => do
          let pass ← (match d.medusa_log_ctx with
            | none => pure true
            | some medusa_ctx => medusa_should_log MEDUSA_LOG_ADVICE medusa_ctx)
          if pass = false then pure (-1)
          else do
            if to_size_t needed_size > STACK_FORMAT_BUFFER_SZ then
              let _ ← medusa_va p fuel (some FILE.stderr) droidcat_ctx
                (truncated_diagnostic p needed_size)
            let local_format := vsnprintf STACK_FORMAT_BUFFER_SZ msg.again
            medusa_raise_event 0 local_format ⟨none, 0⟩ droidcat_ctx
            emit (.fprintf file local_format)
            pure (local_format.length : Int)

/-- The function `medusa_fprintf`, which forwards its arguments to
`medusa_va`.  Two units of fuel are enough for every call (`medusa_va_fuel`). -/
def medusa_fprintf (p : Platform) (output_file : Option FILE)
    (droidcat_ctx : Option droidcat_ctx_t) (msg : Message) : Run Int :=
  medusa_va p 2 output_file droidcat_ctx msg

/-! ## The formatting pipeline -/

/-- Where a buffer pointer of `medusa_do` points: one of the two stack arrays,
a heap block of the given size, or nowhere (a failed `calloc`). -/
inductive Buffer where
  | stack (size : Nat)
  | heap (size : Nat)
  | null
  deriving DecidableEq, Repr

/-- The locals of `medusa_do` that the planning steps update
(`output_is_allocated` is written but never read, and is left out). -/
structure Locals where
  info_format_buffer : Buffer
  format_is_allocated : Bool
  info_output_buffer : Buffer
  collect_format_sz : Int
  collect_output_sz : Int
  deriving DecidableEq, Repr

/-- Lines 320-362 of `medusa_do`: the stack buffers are planned first; with a
configuration whose `format_buffer_sz` exceeds the stack size both buffers are
taken from the heap (the second test repeats the first one). -/
def medusa_do_allocate (env : Environment) (medusa_conf : Option medusa_conf_t) : Run Locals :=
  let l0 : Locals :=
    { info_format_buffer := .stack STACK_FORMAT_BUFFER_SZ
      format_is_allocated := env.format_is_allocated_initial
      info_output_buffer := .stack STACK_OUTPUT_BUFFER_SZ
      collect_format_sz := STACK_FORMAT_BUFFER_SZ
      collect_output_sz := STACK_OUTPUT_BUFFER_SZ }
  match medusa_conf with
  | none => pure l0
  | some conf => do
    let l1 ←
      if STACK_FORMAT_BUFFER_SZ < conf.format_buffer_sz % 65536 then do
        emit (.calloc (conf.format_buffer_sz % 65536) env.calloc_format_ok)
        pure { l0 with
          info_format_buffer :=
            if env.calloc_format_ok then .heap (conf.format_buffer_sz % 65536) else .null
          format_is_allocated := true
          collect_format_sz := to_int16 (conf.format_buffer_sz % 65536 : Nat) }
      else pure l0
    if STACK_FORMAT_BUFFER_SZ < conf.format_buffer_sz % 65536 then do
      emit (.calloc (conf.output_buffer_sz % 65536) env.calloc_output_ok)
      pure { l1 with
        info_output_buffer :=
          if env.calloc_output_ok then .heap (conf.output_buffer_sz % 65536) else .null
        collect_output_sz := to_int16 (conf.output_buffer_sz % 65536 : Nat) }
    else pure l1

/-- The macro `MEDUSA_PRODUCE_REALLOC_BUFFER` up to its test: `realloc` of a
stack array is recorded and is undefined; otherwise the call is recorded with
its outcome. -/
def medusa_produce_realloc (ptr : Buffer) (new_size : Int) (ok : Bool) : Run Bool :=
  match ptr with
  | .stack _ => do
    emit (.realloc_stack (to_size_t new_size))
    undefined_behaviour
  | _ => do
    emit (.realloc (to_size_t new_size) ok)
    pure ok

/-- Lines 364-400 of `medusa_do`: the truncation warning and the growth step.
Every `goto produce` leaves the locals as they are at that point. -/
def medusa_do_grow (p : Platform) (env : Environment) (droidcat_ctx : Option droidcat_ctx_t)
    (medusa_conf : Option medusa_conf_t) (needed_fmt_size : Int) (l : Locals) : Run Locals :=
  if needed_fmt_size > l.collect_format_sz then do
    let _ ← medusa_fprintf p (some FILE.stderr) droidcat_ctx
      (next_event_diagnostic p l.collect_format_sz)
    match medusa_conf with
    | none => pure l
    | some conf =>
      if conf.adjust_buffers_size = false then pure l
      else if l.format_is_allocated = false then pure l
      else do
        let format_ok ← medusa_produce_realloc l.info_format_buffer needed_fmt_size
          env.realloc_format_ok
        if format_ok = false then do
          let _ ← medusa_fprintf p (some FILE.stderr) droidcat_ctx
            (cant_reallocate_diagnostic p needed_fmt_size)
          pure l
        else
          let l1 : Locals := { l with
            info_format_buffer := .heap (to_size_t needed_fmt_size)
            collect_format_sz := to_int16 needed_fmt_size }
          match growable_size needed_fmt_size with
          | none => undefined_behaviour
          | some new_output_size => do
            let output_ok ← medusa_produce_realloc l1.info_output_buffer new_output_size
              env.realloc_output_ok
            if output_ok = false then do
              let _ ← medusa_fprintf p (some FILE.stderr) droidcat_ctx
                (cant_reallocate_diagnostic p new_output_size)
              pure l1
            else
              pure { l1 with
                info_output_buffer := .heap (to_size_t new_output_size)
                collect_output_sz := to_int16 new_output_size }
  else pure l

/-- The number of bytes `vsnprintf(buf, size, ...)` stores, terminator
included. -/
def vsnprintf_stored (size : Nat) (full : List Char) : Nat :=
  if size = 0 then 0 else (vsnprintf size full).length + 1

/-- Lines 402-422 of `medusa_do`, from the label `produce`: render into the
format buffer with `collect_format_sz` as the size, from the `va_list` that
line 336 has consumed; hand the record to `medusa_produce`, the event callback
and `medusa_dispatch_message`, and return -1 when the dispatcher reports 0.
A store through a null buffer, or past the last byte of the buffer, is
undefined. -/
def medusa_do_produce (env : Environment) (level_id : medusa_type_e)
    (current_source : medusa_sourcetrace_t) (droidcat_ctx : Option droidcat_ctx_t)
    (msg : Message) (l : Locals) : Run Int :=
  let size := to_size_t l.collect_format_sz
  let fits : Bool :=
    match l.info_format_buffer with
    | .stack n => vsnprintf_stored size msg.again ≤ n
    | .heap n => vsnprintf_stored size msg.again ≤ n
    | .null => vsnprintf_stored size msg.again = 0
  if fits = false then undefined_behaviour
  else do
    let text := vsnprintf size msg.again
    emit (.medusa_produce l.collect_format_sz l.collect_output_sz text)
    let medusa_ret := env.medusa_produce_ret
    medusa_raise_event level_id.val text current_source droidcat_ctx
    emit (.medusa_dispatch_message text)
    let medusa_ok : Bool := env.medusa_dispatch_message_ret != 0
    pure (if medusa_ok = false then -1 else medusa_ret)

/-- Lines 292-301 of `medusa_do`: the engine of the integrator context, if
both are supplied. -/
def medusa_do_ctx (droidcat_ctx : Option droidcat_ctx_t) : Option medusa_ctx_t :=
  match droidcat_ctx with
  | none => none
  | some d => d.medusa_log_ctx

/-- Lines 292-301 of `medusa_do`: `medusa_conf` is `&medusa_ctx->medusa_config`,
the address of the first field, so it is null exactly when `medusa_ctx` is. -/
def medusa_do_conf (droidcat_ctx : Option droidcat_ctx_t) : Option medusa_conf_t :=
  match medusa_do_ctx droidcat_ctx with
  | none => none
  | some m => some m.medusa_config

/-- Lines 338-400 of `medusa_do`: the locals with which control reaches the
label `produce`, for the size line 336 has measured. -/
def medusa_do_plan (p : Platform) (env : Environment) (droidcat_ctx : Option droidcat_ctx_t)
    (needed_fmt_size : Int) : Run Locals := do
  let l ← medusa_do_allocate env (medusa_do_conf droidcat_ctx)
  medusa_do_grow p env droidcat_ctx (medusa_do_conf droidcat_ctx) needed_fmt_size l

/-- The function `medusa_do` (alias `medusa_go`): gate, measure (line 336),
plan and grow, produce. -/
def medusa_do (p : Platform) (env : Environment) (level_id : medusa_type_e)
    (current_source : medusa_sourcetrace_t) (droidcat_ctx : Option droidcat_ctx_t)
    (msg : Message) : Run Int := do
  let pass ← (match medusa_do_ctx droidcat_ctx with
    | none => pure true
    | some m => medusa_should_log level_id m)
  if pass = false then pure (-1)
  else
    match vsprintf p msg with
    | none => undefined_behaviour
    | some needed_fmt_size => do
      let l ← medusa_do_plan p env droidcat_ctx needed_fmt_size
      medusa_do_produce env level_id current_source droidcat_ctx msg l

/-! ## The engine lifecycle -/

/-- The function `medusa_activate`: asserts that the engine is not running,
copies the configuration (or the default), initialises the mutex and sets the
running flag. -/
def medusa_activate (medusa_conf : Option medusa_conf_t) (medusa_ctx : medusa_ctx_t) :
    Run medusa_ctx_t := do
  c_assert (medusa_ctx.medusa_is_running == false)
  let config := match medusa_conf with
    | some conf => conf
    | none => medusa_default_conf
  emit .mutex_init
  pure { medusa_config := config, medusa_is_running := true }

/-- The function `medusa_wait`: asserts `medusa_is_running == false`, then
locks the mutex (the time-out is not used). -/
def medusa_wait (_time_out : Int) (medusa_ctx : medusa_ctx_t) : Run Unit := do
  c_assert (medusa_ctx.medusa_is_running == false)
  emit .mutex_lock

/-- The constant `_MEDUSA_WAIT_TIME_OUT_`. -/
def MEDUSA_WAIT_TIME_OUT : Int := 100

/-- The function `medusa_deactivate`: waits, clears the running flag, unlocks
and destroys the mutex. -/
def medusa_deactivate (medusa_ctx : medusa_ctx_t) : Run medusa_ctx_t := do
  medusa_wait MEDUSA_WAIT_TIME_OUT medusa_ctx
  let ctx := { medusa_ctx with medusa_is_running := false }
  emit .mutex_unlock
  emit .mutex_destroy
  pure ctx

/-! ## Derived descriptions used in the statements -/

/-- Whether the diagnostic printer passes its gate for this context: always
without an engine, otherwise the test of `medusa_should_log` for
`MEDUSA_LOG_ADVICE`. -/
def advice_enabled (d : droidcat_ctx_t) : Bool :=
  match d.medusa_log_ctx with
  | none => true
  | some m => ((m.medusa_config.displayable_level % 256) &&& (MEDUSA_LOG_ADVICE.val % 256)) != 0

/-- The calls of the gate of the diagnostic printer. -/
def gate_trace (d : droidcat_ctx_t) : List Event :=
  match d.medusa_log_ctx with
  | none => []
  | some _ => [.mutex_lock, .mutex_unlock]

/-- The calls one diagnostic of at most 94 characters makes on `stderr`. -/
def diagnostic_trace (d : droidcat_ctx_t) (text : List Char) : List Event :=
  gate_trace d ++
    (if advice_enabled d then
      [.droidcat_event 0 text ⟨none, 0⟩, .fprintf FILE.stderr text]
    else [])

/-- The source as it is written: `vsprintf` with a null destination faults. -/
def as_written : Platform := { vsprintf_null_returns := false, stale_argument := id }

/-- The reading of the specification: the measuring pass returns the length
and the rendering pass sees the arguments again. -/
def measuring : Platform := { vsprintf_null_returns := true, stale_argument := id }

/-- An environment in which every allocation succeeds, the unwritten flag is
clear, `medusa_produce` returns 11 and `medusa_dispatch_message` returns 1. -/
def sample_env : Environment :=
  { format_is_allocated_initial := false
    calloc_format_ok := true
    calloc_output_ok := true
    realloc_format_ok := true
    realloc_output_ok := true
    medusa_produce_ret := 11
    medusa_dispatch_message_ret := 1 }

/-- A call site. -/
def sample_source : medusa_sourcetrace_t := { source_filename := some "Main_Thread_64.c", source_line := 578 }

/-- An integrator context whose engine holds the default configuration, with
the given running flag. -/
def sample_droidcat (running : Bool) : droidcat_ctx_t :=
  { medusa_log_ctx := some { medusa_config := medusa_default_conf, medusa_is_running := running } }

/-- An integrator context whose running engine holds the given configuration. -/
def droidcat_with (conf : medusa_conf_t) : droidcat_ctx_t :=
  { medusa_log_ctx := some { medusa_config := conf, medusa_is_running := true } }

/-! ## Lemmas -/

theorem run_pure {α : Type} (v : α) : (pure v : Run α) = { trace := [], out := .returned v } := rfl

theorem run_bind {α β : Type} (r : Run α) (k : α → Run β) : (r >>= k) = Run.bind r k := rfl

theorem run_bind_returned {α β : Type} (t : List Event) (v : α) (k : α → Run β) :
    Run.bind { trace := t, out := .returned v } k = { trace := t ++ (k v).trace, out := (k v).out } := rfl

theorem medusa_should_log_eq (id : medusa_type_e) (m : medusa_ctx_t) :
    medusa_should_log id m =
      { trace := [.mutex_lock, .mutex_unlock],
        out := .returned (((m.medusa_config.displayable_level % 256) &&& (id.val % 256)) != 0) } := by
  simp [medusa_should_log, run_bind, run_pure, Run.bind, emit]

theorem digits_aux_length (base : Nat) (fuel n : Nat) (acc : List Char) :
    (digits_aux base fuel n acc).length ≤ fuel + acc.length := by
  induction fuel generalizing n acc with
  | zero => simp [digits_aux]
  | succ k ih =>
    unfold digits_aux
    split
    · simp; omega
    · have := ih (n / base) (Nat.digitChar (n % base) :: acc)
      simp at this
      omega

theorem fmt_d_length (n : Int) : (fmt_d n).length ≤ 11 := by
  unfold fmt_d
  have := digits_aux_length 10 10 n.natAbs []
  split <;> simp at * <;> omega

theorem format_truncated_message_length (needed_size : Int) :
    (format_truncated_message needed_size).length ≤ 53 := by
  have := fmt_d_length (to_int32 needed_size)
  simp [format_truncated_message]
  omega

theorem vsprintf_faults (p : Platform) (msg : Message) (hp : p.vsprintf_null_returns = false) :
    vsprintf p msg = none := by
  simp [vsprintf, hp]

theorem vsprintf_short (p : Platform) (msg : Message) (hp : p.vsprintf_null_returns = true)
    (h : msg.full.length ≤ 2147483647) :
    vsprintf p msg = some (msg.full.length : Int) := by
  simp [vsprintf, hp, h]

/-- On a platform where `vsprintf` with a null destination faults, `medusa_va`
with a stream ends at line 219. -/
theorem medusa_va_faults (p : Platform) (n : Nat) (file : FILE) (ctx : Option droidcat_ctx_t)
    (msg : Message) (hp : p.vsprintf_null_returns = false) :
    medusa_va p (n + 1) (some file) ctx msg = { trace := [], out := .undefined } := by
  unfold medusa_va
  simp only [vsprintf_faults p msg hp]
  rfl

theorem medusa_va_short (p : Platform) (n : Nat) (file : Option FILE)
    (ctx : Option droidcat_ctx_t) (msg : Message) (h : msg.full.length ≤ 95) :
    medusa_va p (n + 1) file ctx msg = medusa_va p 1 file ctx msg := by
  rcases Bool.eq_false_or_eq_true p.vsprintf_null_returns with hp | hp
  · have h2 : ¬ (to_size_t (msg.full.length : Int) > STACK_FORMAT_BUFFER_SZ) := by
      unfold to_size_t STACK_FORMAT_BUFFER_SZ; omega
    conv_lhs => unfold medusa_va
    conv_rhs => unfold medusa_va
    simp only [vsprintf_short p msg hp (by omega), h2, if_false]
  · cases file with
    | none => unfold medusa_va; rfl
    | some f => rw [medusa_va_faults p n f ctx msg hp, medusa_va_faults p 0 f ctx msg hp]

theorem medusa_va_fuel (p : Platform) (n : Nat) (file : Option FILE)
    (ctx : Option droidcat_ctx_t) (msg : Message) :
    medusa_va p (n + 2) file ctx msg = medusa_va p 2 file ctx msg := by
  have key : ∀ needed : Int,
      medusa_va p (n + 1) (some FILE.stderr) ctx (truncated_diagnostic p needed)
        = medusa_va p 1 (some FILE.stderr) ctx (truncated_diagnostic p needed) := fun needed =>
    medusa_va_short p n _ _ _ (by
      have := format_truncated_message_length needed
      simp only [truncated_diagnostic]; omega)
  conv_lhs => unfold medusa_va
  conv_rhs => unfold medusa_va
  simp only [key]

/-- A diagnostic whose two texts have at most 94 characters, where the
measuring pass returns: one level of `medusa_va`, no nested warning, the text
of the rendering pass is stored whole. -/
theorem medusa_va_diagnostic (p : Platform) (n : Nat) (d : droidcat_ctx_t) (msg : Message)
    (hp : p.vsprintf_null_returns = true)
    (h : msg.full.length ≤ 94) (h' : msg.again.length ≤ 94) :
    medusa_va p (n + 1) (some FILE.stderr) (some d) msg =
      { trace := diagnostic_trace d msg.again,
        out := .returned (if advice_enabled d then (msg.again.length : Int) else -1) } := by
  rw [medusa_va_short p n _ _ _ (by omega)]
  have h2 : ¬ (to_size_t (msg.full.length : Int) > STACK_FORMAT_BUFFER_SZ) := by
    unfold to_size_t STACK_FORMAT_BUFFER_SZ; omega
  have h3 : vsnprintf STACK_FORMAT_BUFFER_SZ msg.again = msg.again := by
    unfold vsnprintf STACK_FORMAT_BUFFER_SZ
    simp only [show ¬ (0x5f = 0) by decide, if_false]
    exact List.take_of_length_le (by omega)
  unfold medusa_va
  simp only [vsprintf_short p msg hp (by omega), h2, if_false, h3]
  unfold diagnostic_trace gate_trace advice_enabled
  cases hm : d.medusa_log_ctx with
  | none =>
    simp [run_bind, run_pure, Run.bind, emit, medusa_raise_event]
  | some m =>
    simp only [medusa_should_log_eq, run_bind, run_bind_returned]
    rcases Bool.eq_false_or_eq_true
        (((m.medusa_config.displayable_level % 256) &&& (MEDUSA_LOG_ADVICE.val % 256)) != 0)
      with hb | hb <;>
      simp [hb, run_bind, run_pure, Run.bind, emit, medusa_raise_event]

theorem truncated_diagnostic_length (p : Platform) (needed : Int) :
    (truncated_diagnostic p needed).full.length ≤ 53 ∧
    (truncated_diagnostic p needed).again.length ≤ 53 :=
  ⟨format_truncated_message_length _, format_truncated_message_length _⟩

/-- No run of `medusa_va` with two units of fuel ends for lack of fuel. -/
theorem medusa_va_two_out (p : Platform) (file : Option FILE) (ctx : Option droidcat_ctx_t)
    (msg : Message) :
    (medusa_va p 2 file ctx msg).out ≠ .out_of_fuel := by
  cases file with
  | none => unfold medusa_va; simp [run_pure]
  | some f =>
    rcases Bool.eq_false_or_eq_true p.vsprintf_null_returns with hp | hp
    · cases ctx with
      | none =>
        unfold medusa_va
        cases vsprintf p msg <;> simp [undefined_behaviour]
      | some d =>
        have hv : ∃ v, vsprintf p msg = some v := by simp [vsprintf, hp]
        obtain ⟨v, hv⟩ := hv
        have key := medusa_va_diagnostic p 0 d (truncated_diagnostic p v) hp
          (by have := (truncated_diagnostic_length p v).1; omega)
          (by have := (truncated_diagnostic_length p v).2; omega)
        simp only [Nat.zero_add] at key
        conv_lhs => unfold medusa_va
        simp only [hv, key]
        by_cases hl : to_size_t v > STACK_FORMAT_BUFFER_SZ
        · cases hm : d.medusa_log_ctx with
          | none =>
            simp [hl, run_bind, run_pure, Run.bind, emit, medusa_raise_event]
          | some m =>
            simp only [medusa_should_log_eq, run_bind, run_bind_returned]
            rcases Bool.eq_false_or_eq_true
                (((m.medusa_config.displayable_level % 256) &&& (MEDUSA_LOG_ADVICE.val % 256)) != 0)
              with hb | hb <;>
              simp [hl, hb, run_bind, run_pure, Run.bind, emit, medusa_raise_event]
        · cases hm : d.medusa_log_ctx with
          | none =>
            simp [hl, run_bind, run_pure, Run.bind, emit, medusa_raise_event]
          | some m =>
            simp only [medusa_should_log_eq, run_bind, run_bind_returned]
            rcases Bool.eq_false_or_eq_true
                (((m.medusa_config.displayable_level % 256) &&& (MEDUSA_LOG_ADVICE.val % 256)) != 0)
              with hb | hb <;>
              simp [hl, hb, run_bind, run_pure, Run.bind, emit, medusa_raise_event]
    · rw [medusa_va_faults p 1 f ctx msg hp]; simp

theorem bit_length_spec (fuel n : Nat) (h : n < 2 ^ fuel) :
    n < 2 ^ bit_length fuel n ∧ (0 < n → 2 ^ (bit_length fuel n - 1) ≤ n) := by
  induction fuel generalizing n with
  | zero => simp at h; subst h; simp [bit_length]
  | succ k ih =>
    unfold bit_length
    by_cases hn : n = 0
    · simp [hn]
    · simp only [hn, if_false]
      have hlt : n / 2 < 2 ^ k := by
        rw [pow_succ] at h; omega
      obtain ⟨h1, h2⟩ := ih (n / 2) hlt
      constructor
      · rw [pow_succ]; omega
      · intro _
        simp only [Nat.add_sub_cancel]
        by_cases hz : n / 2 = 0
        · have : bit_length k (n / 2) = 0 := by
            cases k with
            | zero => rfl
            | succ j => simp [bit_length, hz]
          rw [this]; simp; omega
        · have h3 := h2 (by omega)
          have : bit_length k (n / 2) = (bit_length k (n / 2) - 1) + 1 := by
            have : bit_length k (n / 2) ≠ 0 := by
              intro h0; rw [h0] at h1; simp at h1; omega
            omega
          rw [this, pow_succ]; omega

/-- Up to 19859 the rounded product, converted to `int`, is the integer part
of `R * 165 / 100`. -/
theorem growable_size_eq (R : Nat) (hR : R ≤ 19859) :
    growable_size (R : Int) = some ((R * 165 / 100 : Nat) : Int) := by
  have hp : R * GROWABLE_SIGNIFICAND < 2 ^ 128 := by
    unfold GROWABLE_SIGNIFICAND; norm_num; omega
  obtain ⟨h1, h2⟩ := bit_length_spec 128 (R * GROWABLE_SIGNIFICAND) hp
  have key : round_to_double (R * GROWABLE_SIGNIFICAND) / 2 ^ 52 = R * 165 / 100 := by
    unfold round_to_double
    generalize hb : bit_length 128 (R * GROWABLE_SIGNIFICAND) = b at h1 h2
    have hb68 : b ≤ 68 := by
      by_contra hcon
      push_neg at hcon
      by_cases hR0 : R = 0
      · subst hR0; simp [bit_length] at hb; omega
      · have := h2 (by unfold GROWABLE_SIGNIFICAND; omega)
        have h68 : 2 ^ 68 ≤ 2 ^ (b - 1) := Nat.pow_le_pow_right (by norm_num) (by omega)
        unfold GROWABLE_SIGNIFICAND at this
        norm_num at h68
        omega
    unfold GROWABLE_SIGNIFICAND at *
    interval_cases b <;> simp at h1 h2 ⊢ <;> first | omega | (split <;> omega)
  unfold growable_size
  simp only [Int.natAbs_ofNat, key]
  have : ¬ ((R : Int) < 0) := by omega
  simp only [this, if_false]
  rw [if_pos]
  omega

theorem to_int16_natCast (n : Nat) (h : n ≤ 32767) : to_int16 (n : Int) = n := by
  unfold to_int16; omega

theorem bind_out {α β : Type} (r : Run α) (k : α → Run β) (v : β)
    (h : (r >>= k).out = .returned v) : ∃ a, r.out = .returned a ∧ (k a).out = .returned v := by
  rw [run_bind] at h
  unfold Run.bind at h
  cases hr : r.out with
  | returned a => rw [hr] at h; exact ⟨a, rfl, h⟩
  | undefined => rw [hr] at h; simp at h
  | aborted => rw [hr] at h; simp at h
  | out_of_fuel => rw [hr] at h; simp at h

theorem medusa_do_allocate_heap (env : Environment) (conf : medusa_conf_t)
    (h : STACK_FORMAT_BUFFER_SZ < conf.format_buffer_sz % 65536) :
    medusa_do_allocate env (some conf) =
      { trace := [.calloc (conf.format_buffer_sz % 65536) env.calloc_format_ok,
                  .calloc (conf.output_buffer_sz % 65536) env.calloc_output_ok],
        out := .returned
          { info_format_buffer :=
              if env.calloc_format_ok then .heap (conf.format_buffer_sz % 65536) else .null
            format_is_allocated := true
            info_output_buffer :=
              if env.calloc_output_ok then .heap (conf.output_buffer_sz % 65536) else .null
            collect_format_sz := to_int16 (conf.format_buffer_sz % 65536 : Nat)
            collect_output_sz := to_int16 (conf.output_buffer_sz % 65536 : Nat) } } := by
  unfold medusa_do_allocate
  simp [h, run_bind, run_pure, Run.bind, emit]

theorem medusa_do_allocate_stack (env : Environment) (conf : Option medusa_conf_t)
    (h : ∀ c, conf = some c → ¬ STACK_FORMAT_BUFFER_SZ < c.format_buffer_sz % 65536) :
    medusa_do_allocate env conf =
      { trace := [],
        out := .returned
          { info_format_buffer := .stack STACK_FORMAT_BUFFER_SZ
            format_is_allocated := env.format_is_allocated_initial
            info_output_buffer := .stack STACK_OUTPUT_BUFFER_SZ
            collect_format_sz := STACK_FORMAT_BUFFER_SZ
            collect_output_sz := STACK_OUTPUT_BUFFER_SZ } } := by
  unfold medusa_do_allocate
  cases conf with
  | none => rfl
  | some c =>
    have := h c rfl
    simp [this, run_bind, run_pure, Run.bind]

/-- What `medusa_do_grow` can hand to `produce`: the locals it received, or
the locals after one or two successful reallocations. -/
theorem medusa_do_grow_out (p : Platform) (env : Environment) (ctx : Option droidcat_ctx_t)
    (conf : Option medusa_conf_t) (needed : Int) (l l' : Locals)
    (h : (medusa_do_grow p env ctx conf needed l).out = .returned l') :
    l' = l ∨
    (needed > l.collect_format_sz ∧ env.realloc_format_ok = true ∧
      ∃ v, growable_size needed = some v ∧
        ((env.realloc_output_ok = false ∧
            l' = { l with info_format_buffer := .heap (to_size_t needed)
                          collect_format_sz := to_int16 needed }) ∨
         (env.realloc_output_ok = true ∧
            l' = { l with info_format_buffer := .heap (to_size_t needed)
                          collect_format_sz := to_int16 needed
                          info_output_buffer := .heap (to_size_t v)
                          collect_output_sz := to_int16 v }))) := by
  unfold medusa_do_grow at h
  by_cases hgt : needed > l.collect_format_sz
  · simp only [hgt, if_true] at h
    obtain ⟨_, _, h⟩ := bind_out _ _ _ h
    cases conf with
    | none => simp [run_pure] at h; exact Or.inl h.symm
    | some c =>
      simp only at h
      by_cases hadj : c.adjust_buffers_size = false
      · simp [hadj, run_pure] at h; exact Or.inl h.symm
      · simp only [hadj, if_false] at h
        by_cases hfa : l.format_is_allocated = false
        · simp [hfa, run_pure] at h; exact Or.inl h.symm
        · simp only [hfa, if_false] at h
          obtain ⟨fok, hfok, h⟩ := bind_out _ _ _ h
          have hfok' : fok = env.realloc_format_ok := by
            unfold medusa_produce_realloc at hfok
            split at hfok
            · simp [undefined_behaviour, run_bind, Run.bind, emit] at hfok
            · simp [run_bind, run_pure, Run.bind, emit] at hfok; exact hfok.symm
          subst hfok'
          by_cases hf : env.realloc_format_ok = false
          · simp only [hf, if_true] at h
            obtain ⟨_, _, h⟩ := bind_out _ _ _ h
            simp [run_pure] at h; exact Or.inl h.symm
          · simp only [hf, if_false] at h
            right
            refine ⟨hgt, by simpa using hf, ?_⟩
            cases hg : growable_size needed with
            | none => simp [hg, undefined_behaviour] at h
            | some v =>
              simp only [hg] at h
              refine ⟨v, rfl, ?_⟩
              obtain ⟨ook, hook, h⟩ := bind_out _ _ _ h
              have hook' : ook = env.realloc_output_ok := by
                unfold medusa_produce_realloc at hook
                split at hook
                · simp [undefined_behaviour, run_bind, Run.bind, emit] at hook
                · simp [run_bind, run_pure, Run.bind, emit] at hook; exact hook.symm
              subst hook'
              by_cases ho : env.realloc_output_ok = false
              · simp only [ho, if_true] at h
                obtain ⟨_, _, h⟩ := bind_out _ _ _ h
                simp [run_pure] at h
                exact Or.inl ⟨ho, by rw [show l.format_is_allocated = true by simpa using hfa]; exact h.symm⟩
              · simp only [ho, if_false] at h
                simp [run_pure] at h
                exact Or.inr ⟨by simpa using ho, by rw [show l.format_is_allocated = true by simpa using hfa]; exact h.symm⟩
  · simp [hgt, run_pure] at h; exact Or.inl h.symm

theorem to_int16_small (n : Int) (hlo : -32768 ≤ n) (hhi : n ≤ 32767) : to_int16 n = n := by
  unfold to_int16; omega

theorem growable_size_int (R : Nat) (hR : R ≤ 19859) :
    growable_size (R : Int) = some ((R : Int) * 165 / 100) := by
  rw [growable_size_eq R hR]; congr 1

theorem medusa_do_reject (p : Platform) (env : Environment) (level_id : medusa_type_e)
    (src : medusa_sourcetrace_t) (d : droidcat_ctx_t) (m : medusa_ctx_t) (msg : Message)
    (hctx : d.medusa_log_ctx = some m)
    (hrej : (medusa_should_log level_id m).out = .returned false) :
    medusa_do p env level_id src (some d) msg =
      { trace := [.mutex_lock, .mutex_unlock], out := .returned (-1) } := by
  rw [medusa_should_log_eq] at hrej
  simp only [Outcome.returned.injEq] at hrej
  unfold medusa_do
  simp [medusa_do_ctx, hctx, medusa_should_log_eq, hrej, run_bind, run_pure, Run.bind]

theorem medusa_deactivate_eq (ctx : medusa_ctx_t) :
    medusa_deactivate ctx =
      if ctx.medusa_is_running = false then
        { trace := [.mutex_lock, .mutex_unlock, .mutex_destroy],
          out := .returned { ctx with medusa_is_running := false } }
      else { trace := [], out := .aborted } := by
  unfold medusa_deactivate medusa_wait c_assert
  cases h : ctx.medusa_is_running <;> simp [run_bind, run_pure, Run.bind, emit]

/-! ## The claims -/

/-- C1 (defect in the code): `medusa_should_log` masks the level byte with the
enumerator value of the severity, not with the bit at its position.  Info
(value 0) is rejected under every mask, also under the default mask, whose
bit 0 is set; and under the mask 1, whose bit 1 is clear, Warning (value 1) is
accepted. -/
theorem should_log_masks_with_enumerator_value :
    medusa_default_conf.displayable_level.testBit MEDUSA_LOG_INFO.val = true ∧
    (∀ ctx : medusa_ctx_t,
      medusa_should_log MEDUSA_LOG_INFO ctx =
        { trace := [.mutex_lock, .mutex_unlock], out := .returned false }) ∧
    (1 : Nat).testBit MEDUSA_LOG_WARNING.val = false ∧
    (medusa_should_log MEDUSA_LOG_WARNING
      { medusa_config := { medusa_default_conf with displayable_level := 1 },
        medusa_is_running := true }).out = .returned true := by
  refine ⟨by decide, ?_, by decide, by decide⟩
  intro ctx
  rw [medusa_should_log_eq]
  simp [medusa_type_e.val]

/-- C2: when an integrator context with an engine is supplied and
`medusa_should_log` rejects the severity, `medusa_do` returns -1 and the only
calls it has made are the lock and unlock of the gate: no `calloc`, no
`realloc`, no event callback, no stream write.  The return precedes the
measuring pass of line 336, so this holds on every platform and for every
message. -/
theorem medusa_do_suppressed (p : Platform) (env : Environment) (level_id : medusa_type_e)
    (current_source : medusa_sourcetrace_t) (d : droidcat_ctx_t) (m : medusa_ctx_t)
    (msg : Message) (hctx : d.medusa_log_ctx = some m)
    (hrej : (medusa_should_log level_id m).out = .returned false) :
    medusa_do p env level_id current_source (some d) msg =
      { trace := [.mutex_lock, .mutex_unlock], out := .returned (-1) } :=
  medusa_do_reject p env level_id current_source d m msg hctx hrej

/-- C2, at the default configuration with the severity Info, on the source as
written. -/
theorem medusa_do_suppressed_witness :
    medusa_do as_written sample_env MEDUSA_LOG_INFO sample_source (some (sample_droidcat true))
        (Message.literal "hello world".toList) =
      { trace := [.mutex_lock, .mutex_unlock], out := .returned (-1) } :=
  medusa_do_suppressed as_written sample_env MEDUSA_LOG_INFO sample_source
    (sample_droidcat true)
    { medusa_config := medusa_default_conf, medusa_is_running := true }
    (Message.literal "hello world".toList) rfl (by decide)

set_option maxRecDepth 100000 in
/-- C4 (defect in the code): a message of 96 characters exceeds the stack
capacity 95.  Without an integrator context, where the measuring pass returns,
the truncation warning enters `medusa_va`, which reads
`droidcat_ctx->medusa_log_ctx` before comparing `droidcat_ctx` with `NULL`: the
run is undefined before any warning is written or the message is rendered.
With an engine whose format hint is 95 (stack buffer) and auto-grow on, the
test of `format_is_allocated` reads a field that was never written; when it
holds a non-zero value the stack array is passed to `realloc` with the
required size 96.  On the source as written both calls end undefined earlier,
at the measuring pass of line 336. -/
theorem truncation_without_growth_is_undefined :
    medusa_do measuring sample_env MEDUSA_LOG_WARNING sample_source none
        (Message.literal (List.replicate 96 'a')) =
      { trace := [], out := .undefined } ∧
    medusa_do measuring { sample_env with format_is_allocated_initial := true }
        MEDUSA_LOG_WARNING sample_source
        (some (droidcat_with { medusa_default_conf with format_buffer_sz := 95 }))
        (Message.literal (List.replicate 96 'a')) =
      { trace := [.mutex_lock, .mutex_unlock, .mutex_lock, .mutex_unlock,
          .droidcat_event 0 "The next log event will be truncated in 95 bytes\n".toList ⟨none, 0⟩,
          .fprintf FILE.stderr "The next log event will be truncated in 95 bytes\n".toList,
          .realloc_stack 96],
        out := .undefined } ∧
    medusa_do as_written sample_env MEDUSA_LOG_WARNING sample_source none
        (Message.literal (List.replicate 96 'a')) =
      { trace := [], out := .undefined } ∧
    medusa_do as_written { sample_env with format_is_allocated_initial := true }
        MEDUSA_LOG_WARNING sample_source
        (some (droidcat_with { medusa_default_conf with format_buffer_sz := 95 }))
        (Message.literal (List.replicate 96 'a')) =
      { trace := [.mutex_lock, .mutex_unlock], out := .undefined } := by
  refine ⟨by decide, by decide, by decide, by decide⟩

set_option maxRecDepth 100000 in
/-- C5 (defect in the code): default configuration (format capacity 127) and a
text of exactly 127 characters without conversions.  Where the measuring pass
returns, no warning is issued and nothing grows, but `vsnprintf` receives the
capacity as its size and stores 126 characters: the rendered text is one
character short of the reference text.  On the source as written the call ends
undefined at the measuring pass of line 336 and renders nothing. -/
theorem boundary_size_loses_last_character :
    vsprintf measuring (Message.literal (List.replicate 127 'a')) = some 127 ∧
    medusa_do measuring sample_env MEDUSA_LOG_WARNING sample_source
        (some (sample_droidcat true)) (Message.literal (List.replicate 127 'a')) =
      { trace := [.mutex_lock, .mutex_unlock, .calloc 127 true, .calloc 287 true,
          .medusa_produce 127 287 (List.replicate 126 'a'),
          .droidcat_event 1 (List.replicate 126 'a') sample_source,
          .medusa_dispatch_message (List.replicate 126 'a')],
        out := .returned 11 } ∧
    List.replicate 126 'a' ≠ List.replicate 127 'a' ∧
    medusa_do as_written sample_env MEDUSA_LOG_WARNING sample_source
        (some (sample_droidcat true)) (Message.literal (List.replicate 127 'a')) =
      { trace := [.mutex_lock, .mutex_unlock], out := .undefined } := by
  refine ⟨by decide, by decide, by decide, by decide⟩

/-- C7 (defect in the code): `medusa_activate` on an engine that is not running
initialises the mutex and sets the running flag; `medusa_deactivate` on the
engine it produces trips the assertion `medusa_is_running == false` of
`medusa_wait` before the lock is taken, so the flag stays set and the mutex is
neither locked, unlocked nor destroyed. -/
theorem deactivate_after_activate_aborts (medusa_conf : Option medusa_conf_t)
    (config : medusa_conf_t) :
    ∃ ctx, medusa_activate medusa_conf { medusa_config := config, medusa_is_running := false } =
        { trace := [.mutex_init], out := .returned ctx } ∧
      ctx.medusa_is_running = true ∧
      medusa_wait MEDUSA_WAIT_TIME_OUT ctx = { trace := [], out := .aborted } ∧
      medusa_deactivate ctx = { trace := [], out := .aborted } := by
  cases medusa_conf with
  | none =>
    refine ⟨{ medusa_config := medusa_default_conf, medusa_is_running := true }, ?_, rfl, ?_, ?_⟩
    · simp [medusa_activate, c_assert, run_bind, run_pure, Run.bind, emit]
    · simp [medusa_wait, c_assert, run_bind, Run.bind]
    · rw [medusa_deactivate_eq]; simp
  | some conf =>
    refine ⟨{ medusa_config := conf, medusa_is_running := true }, ?_, rfl, ?_, ?_⟩
    · simp [medusa_activate, c_assert, run_bind, run_pure, Run.bind, emit]
    · simp [medusa_wait, c_assert, run_bind, Run.bind]
    · rw [medusa_deactivate_eq]; simp

/-- Where the measuring pass returns, control reaches `produce` with an output
capacity strictly greater than the format capacity provided that, when the
buffers are taken from the heap (format hint above 95), the output hint
exceeds the format hint and is at most 32767, that a growth step whose first
reallocation succeeds does not fail at the second, and that the required size
is at most 19859. -/
theorem planned_output_exceeds_format (p : Platform) (env : Environment)
    (droidcat_ctx : Option droidcat_ctx_t) (needed_fmt_size : Int) (l : Locals)
    (hreach : (medusa_do_plan p env droidcat_ctx needed_fmt_size).out = .returned l)
    (hhints : ∀ conf, medusa_do_conf droidcat_ctx = some conf →
      STACK_FORMAT_BUFFER_SZ < conf.format_buffer_sz % 65536 →
        conf.format_buffer_sz % 65536 < conf.output_buffer_sz % 65536 ∧
        conf.output_buffer_sz % 65536 ≤ 32767)
    (hgrow : env.realloc_format_ok = true → env.realloc_output_ok = true)
    (hR : needed_fmt_size ≤ 19859) :
    l.collect_format_sz < l.collect_output_sz := by
  unfold medusa_do_plan at hreach
  obtain ⟨l0, hl0, hl⟩ := bind_out _ _ _ hreach
  have hbase : l0.collect_format_sz < l0.collect_output_sz ∧ 95 ≤ l0.collect_format_sz := by
    cases hc : medusa_do_conf droidcat_ctx with
    | none =>
      rw [hc, medusa_do_allocate_stack env none (by simp)] at hl0
      simp only [Outcome.returned.injEq] at hl0
      rw [← hl0]
      simp [STACK_FORMAT_BUFFER_SZ, STACK_OUTPUT_BUFFER_SZ]
    | some conf =>
      by_cases hheap : STACK_FORMAT_BUFFER_SZ < conf.format_buffer_sz % 65536
      · obtain ⟨h1, h2⟩ := hhints conf hc hheap
        rw [hc, medusa_do_allocate_heap env conf hheap] at hl0
        simp only [Outcome.returned.injEq] at hl0
        rw [← hl0]
        simp only
        rw [to_int16_natCast _ (by omega), to_int16_natCast _ h2]
        unfold STACK_FORMAT_BUFFER_SZ at hheap
        constructor
        · exact_mod_cast h1
        · omega
      · rw [hc, medusa_do_allocate_stack env (some conf)
          (by intro c hcc; cases hcc; exact hheap)] at hl0
        simp only [Outcome.returned.injEq] at hl0
        rw [← hl0]
        simp [STACK_FORMAT_BUFFER_SZ, STACK_OUTPUT_BUFFER_SZ]
  rcases medusa_do_grow_out p env droidcat_ctx _ needed_fmt_size l0 l hl with h | h
  · rw [h]; exact hbase.1
  · obtain ⟨hgt, hf, v, hv, h⟩ := h
    have ho := hgrow hf
    have hnn : (needed_fmt_size.toNat : Int) = needed_fmt_size := Int.toNat_of_nonneg (by omega)
    have hv' := growable_size_int needed_fmt_size.toNat (by omega)
    rw [hnn, hv] at hv'
    simp only [Option.some.injEq] at hv'
    rcases h with ⟨ho', _⟩ | ⟨_, h⟩
    · rw [ho] at ho'; exact absurd ho' (by decide)
    · rw [h, hv']
      simp only
      have hlo : needed_fmt_size < needed_fmt_size * 165 / 100 := by omega
      have hhi : needed_fmt_size * 165 / 100 ≤ 32767 := by omega
      rw [to_int16_small needed_fmt_size (by omega) (by omega),
        to_int16_small _ (by omega) hhi]
      exact hlo

set_option maxRecDepth 100000 in
/-- Where the measuring pass returns and the hints are 200 for the format and
100 for the output buffer, a message that fits reaches `produce` with format
capacity 200 and output capacity 100. -/
theorem measuring_pass_reaches_produce_with_hints :
    (medusa_do measuring sample_env MEDUSA_LOG_WARNING sample_source
        (some (droidcat_with
          { medusa_default_conf with format_buffer_sz := 200, output_buffer_sz := 100 }))
        (Message.literal "hello world".toList)).trace =
      [.mutex_lock, .mutex_unlock, .calloc 200 true, .calloc 100 true,
        .medusa_produce 200 100 "hello world".toList,
        .droidcat_event 1 "hello world".toList sample_source,
        .medusa_dispatch_message "hello world".toList] := by
  decide

/-- C10: `medusa_va` ends with two units of fuel for every platform, stream,
context and message, and more fuel does not change the run.  The warning of
`medusa_va` has fewer than 95 characters for every value of `needed_size`, in
the measuring pass and in the rendering pass; the nested call for it finishes
within one level, that is without a warning of its own. -/
theorem medusa_va_terminates (p : Platform) (n : Nat) (output_file : Option FILE)
    (droidcat_ctx : Option droidcat_ctx_t) (msg : Message) :
    medusa_va p (n + 2) output_file droidcat_ctx msg =
      medusa_va p 2 output_file droidcat_ctx msg ∧
    (medusa_va p 2 output_file droidcat_ctx msg).out ≠ .out_of_fuel ∧
    (∀ needed_size : Int,
      (format_truncated_message needed_size).length < STACK_FORMAT_BUFFER_SZ ∧
      (truncated_diagnostic p needed_size).full = format_truncated_message needed_size ∧
      (truncated_diagnostic p needed_size).again.length < STACK_FORMAT_BUFFER_SZ ∧
      medusa_va p (n + 1) (some FILE.stderr) droidcat_ctx (truncated_diagnostic p needed_size) =
        medusa_va p 1 (some FILE.stderr) droidcat_ctx (truncated_diagnostic p needed_size) ∧
      (medusa_va p 1 (some FILE.stderr) droidcat_ctx (truncated_diagnostic p needed_size)).out ≠
        .out_of_fuel) := by
  refine ⟨medusa_va_fuel p n _ _ _, medusa_va_two_out p _ _ _, ?_⟩
  intro needed_size
  have hlen := truncated_diagnostic_length p needed_size
  have hlen' := format_truncated_message_length needed_size
  refine ⟨by unfold STACK_FORMAT_BUFFER_SZ; omega, rfl, by unfold STACK_FORMAT_BUFFER_SZ; omega,
    medusa_va_short p n _ _ _ (by omega), ?_⟩
  rcases Bool.eq_false_or_eq_true p.vsprintf_null_returns with hp | hp
  · cases droidcat_ctx with
    | none =>
      unfold medusa_va
      cases vsprintf p (truncated_diagnostic p needed_size) <;> simp [undefined_behaviour]
    | some d =>
      have := medusa_va_diagnostic p 0 d (truncated_diagnostic p needed_size) hp
        (by omega) (by omega)
      simp only [Nat.zero_add] at this
      rw [this]
      simp
  · rw [medusa_va_faults p 0 FILE.stderr droidcat_ctx _ hp]; simp

end Medusa
